import Mathlib

/-!
Verification of the naming and resolution engine of the `ldapfs` repository
(an LDAP-backed FUSE filesystem).  Python sources are shallowly embedded as
Lean functions; strings are modelled as `String` or `List Char`, Python
`dict`s as insertion-ordered association lists, and the external LDAP
client as an oracle structure.  Each embedded definition cites the source
file and lines it is translated from.
-/

/-! ## Name codec  (src/ldapfs/ldapdn.py, src/ldapfs/name.py) -/

/-- The escape sentinel of `ldapdn.py`: the path separator `/` is written
`%2F` inside filenames (ldapdn.py lines 44-52). -/
def pathSepToken : List Char := ['%', '2', 'F']

/-- `ldapdn.escape_path` (ldapdn.py lines 44-52):
`path.replace(os.path.sep, '%2F')` with `os.path.sep = '/'`.  For a
single-character pattern, Python `replace` rewrites each occurrence of
that character. -/
def escape_path : List Char → List Char
  | [] => []
  | c :: s => if c = '/' then '%' :: '2' :: 'F' :: escape_path s else c :: escape_path s

/-- `ldapdn.unescape_path` (ldapdn.py lines 55-58):
`path.replace('%2F', os.path.sep)`.  Python `replace` scans left to
right, non-overlapping: where the next three characters are the token it
emits `/` and continues after them, otherwise it copies one character. -/
def unescape_path : List Char → List Char
  | '%' :: '2' :: 'F' :: s => '/' :: unescape_path s
  | c :: s => c :: unescape_path s
  | [] => []

/-- Does `pat` occur as a contiguous subsequence of `s`?  (Used to state
the domain on which the codec round-trips.) -/
def hasOcc (pat : List Char) : List Char → Bool
  | [] => pat.isPrefixOf []
  | c :: t => pat.isPrefixOf (c :: t) || hasOcc pat t

/-- Python `dn.split(sep)[0]` for non-empty `sep`: the prefix of `dn`
before the first occurrence of `sep` (all of `dn` when `sep` does not
occur).  (Python raises on an empty separator; all repository calls pass
a non-empty parent DN.) -/
def splitHead (sep : List Char) : List Char → List Char
  | [] => []
  | c :: s => if sep.isPrefixOf (c :: s) then [] else c :: splitHead sep s

/-- The trailing-comma chop of `ldapdn.dn2filename` (ldapdn.py lines
75-77): `if path.endswith(',') and not (len(path) >= 2 and path[-2] ==
'\\'): path = path[:-1]`.  Matching on the reversed list: a final `,`
preceded by `\` is kept, any other final `,` is dropped. -/
def chopTrailingComma (path : List Char) : List Char :=
  match path.reverse with
  | ',' :: '\\' :: _ => path
  | ',' :: _ => path.dropLast
  | _ => path

/-- `ldapdn.dn2filename(dn, parent_dn)` (ldapdn.py lines 71-80); the
textually identical `DN.to_filename` is at name.py lines 85-93. -/
def dn2filename (dn parent_dn : List Char) : List Char :=
  escape_path (chopTrailingComma (splitHead parent_dn dn))

/-- The claim C6 wording of `nameToFilename`: strip the ancestor *suffix*
from the name, chop one unescaped trailing separator, then escape.
(Second definition written from the spec, to compare with `dn2filename`.) -/
def claimNameToFilename (dn parent_dn : List Char) : List Char :=
  let stripped := if parent_dn.isSuffixOf dn then dn.take (dn.length - parent_dn.length) else dn
  escape_path (chopTrailingComma stripped)

/-! ## Entry model (src/ldapfs/ldapcon.py) -/

/-- A Python LDAP attribute dictionary: insertion-ordered mapping from
attribute name to its list of values. -/
abbrev Attrs := List (String × List String)

/-- Python `dct.get(key)` on the association-list model of a dict. -/
def lookupA {β : Type} : List (String × β) → String → Option β
  | [], _ => none
  | (k, v) :: r, key => if k = key then some v else lookupA r key

/-- Python `sep.join(lst)`. -/
def joinSep (sep : String) : List String → String
  | [] => ""
  | [v] => v
  | v :: vs => v ++ sep ++ joinSep sep vs

/-- `Entry.ALL_ATTRIBUTES` (ldapcon.py line 17). -/
def ALL_ATTRIBUTES : String := "=attributes"

/-- `ldapcon.Entry` (ldapcon.py lines 14-21). -/
structure Entry where
  dn : String
  attrs : Attrs

/-- `Entry.text` (ldapcon.py lines 23-45).  `none` models the raised
`AttributeError`; note that `if vals:` is falsy both when the attribute
is absent (`get` returned `None`) and when its value list is empty. -/
def Entry.text (e : Entry) (attr_name : String) : Option String :=
  if attr_name = ALL_ATTRIBUTES then
    if e.attrs ≠ [] then
      some (joinSep "\n" (e.attrs.map fun kv => kv.1 ++ "=" ++ joinSep "," kv.2) ++ "\n")
    else
      some ""
  else
    match lookupA e.attrs attr_name with
    | some vals => if vals ≠ [] then some (joinSep "," vals ++ "\n") else none
    | none => none

/-- `Entry.names` (ldapcon.py lines 47-49). -/
def Entry.names (e : Entry) : List String := e.attrs.map Prod.fst

/-- `Entry.size` (ldapcon.py lines 51-53): `len(self.text(attr_name))`,
failing exactly when `text` fails. -/
def Entry.size (e : Entry) (attr_name : String) : Option Nat :=
  (e.text attr_name).map String.length

/-! ## File sizes (src/ldapfs/fs.py) -/

/-- `Stat._list_size` (fs.py lines 69-81): sum of the value lengths plus
one per value (commas between values plus a trailing newline). -/
def list_size (lst : List String) : Nat :=
  (lst.map String.length).sum + lst.length

/-- `Stat._dict_size` (fs.py lines 55-67): sum over dict entries of key
length + 1 (for `=`) + the list size of the values. -/
def dict_size (attrs : Attrs) : Nat :=
  (attrs.map fun kv => kv.1.length + 1 + list_size kv.2).sum

/-- The arithmetic `renderedSize` of claim C5: `dict_size` for the
all-attributes key, `sizeOf(values)` for a single attribute key. -/
def rendered_size (attrs : Attrs) (key : String) : Nat :=
  if key = ALL_ATTRIBUTES then dict_size attrs
  else list_size ((lookupA attrs key).getD [])

/-! ## Path classifier (src/ldapfs/name.py; LdapFS._path2list) -/

/-- Python `s.strip(chars)` on character lists: remove the characters of
`bad` from both ends. -/
def stripChars (bad : List Char) (s : List Char) : List Char :=
  ((s.dropWhile bad.contains).reverse.dropWhile bad.contains).reverse

/-- Python `s.split(sep)` for a single-character separator: keeps empty
pieces; splitting the empty string yields `[""]`. -/
def splitOnChar (sep : Char) : List Char → List (List Char)
  | [] => [[]]
  | c :: t =>
    if c = sep then [] :: splitOnChar sep t
    else
      match splitOnChar sep t with
      | [] => [[c]]
      | h :: r => (c :: h) :: r

/-- `LdapFS._path2list` (ldapfs.py lines 106-109) and the `parts`
computation of `Path.__init__` (name.py line 19):
`path.strip('/ ').split('/')` (`os.path.sep` is `/`). -/
def path2list (path : String) : List String :=
  (splitOnChar '/' (stripChars ['/', ' '] path.data)).map List.asString

/-- `os.path.split` for POSIX paths: split after the final `/`; the head
keeps no trailing slash unless it consists only of slashes. -/
def osPathSplit (p : String) : String × String :=
  let tl := (p.data.reverse.takeWhile (fun c => c != '/')).reverse
  let hd := p.data.take (p.data.length - tl.length)
  let hd2 :=
    if hd ≠ [] ∧ hd.any (fun c => c != '/') then
      (hd.reverse.dropWhile (fun c => c == '/')).reverse
    else hd
  (hd2.asString, tl.asString)

/-! ## The external LDAP client, as an oracle -/

inductive LogLevel where
  | debug
  | error
deriving DecidableEq

/-- Outcome of `con.search_st(dn, ldap.SCOPE_BASE)` as consumed by the
dispatcher: the found entry's attribute dict (`entry[0][1]`), or the
exception class raised. -/
inductive SearchOutcome where
  | found (attrs : Attrs)
  | noSuchObject
  | invalidDN
  | ldapError
deriving DecidableEq

/-- Outcome of `con.search_st(dn, ldap.SCOPE_ONELEVEL)`: the list of
`(dn, attrs)` result pairs, or the exception class raised. -/
inductive SearchOneOutcome where
  | found (entries : List (String × Attrs))
  | noSuchObject
  | invalidDN
  | ldapError
deriving DecidableEq

structure LdapConn where
  searchBase : String → SearchOutcome
  searchOne : String → SearchOneOutcome

/-- One host section of the configuration: the configured base DNs and
the open connection (`self.hosts[host]`). -/
structure HostConfig where
  base_dns : List String
  con : LdapConn

/-- The dispatcher state: the configured host table (`self.hosts`), plus
the LDAP DN grammar (`ldap.dn.explode_dn` succeeding) — external library
behaviour, hence a parameter of the model. -/
structure LdapFS where
  hosts : List (String × HostConfig)
  validDN : String → Bool

/-- `ldapdn.unescape_path` on `String`. -/
def unescapePathS (s : String) : String := (unescape_path s.data).asString

/-- `ldapdn.escape_path` on `String`. -/
def escapePathS (s : String) : String := (escape_path s.data).asString

/-- `ldapdn.dn2filename` on `String` (used by `readdir`). -/
def dn2filenameS (dn parent_dn : String) : String :=
  (dn2filename dn.data parent_dn.data).asString

/-- `name.Path` (name.py lines 12-47): the classification record built
per callback.  `host` and `base_dn` are `none` where Python stores
`None`. -/
structure FsPath where
  fspath : String
  dirpart : String
  filepart : String
  parts : List String
  len : Nat
  host : Option String
  base_dn : Option String
  dn_parts : List String

/-- `Path.__init__` (name.py lines 15-32). -/
def mkPath (fspath : String) (hosts : List (String × HostConfig)) : FsPath :=
  let dp := osPathSplit fspath
  let parts := path2list fspath
  let len := parts.length
  let hbd : Option String × Option String × List String :=
    if 1 ≤ len then
      match lookupA hosts (parts.getD 0 "") with
      | some hc =>
        if 2 ≤ len ∧ parts.getD 1 "" ∈ hc.base_dns then
          (some (parts.getD 0 ""), some (parts.getD 1 ""), parts.drop 1)
        else (some (parts.getD 0 ""), none, [])
      | none => (none, none, [])
    else (none, none, [])
  { fspath := fspath, dirpart := dp.1, filepart := dp.2, parts := parts,
    len := len, host := hbd.1, base_dn := hbd.2.1, dn_parts := hbd.2.2 }

/-- `ldapdn.list2dn` (ldapdn.py lines 28-41): join the reversed
components with commas, unescape, append the base DN, and validate with
`explode_dn` (`none` models the raised `ldap.DECODING_ERROR`); an empty
component list returns the base DN without validating it. -/
def list2dn (validDN : String → Bool) (pathlst : List String) (base_dn : String) :
    Option String :=
  match pathlst with
  | [] => some base_dn
  | _ =>
    let dn := unescapePathS (joinSep "," pathlst.reverse) ++ "," ++ base_dn
    if validDN dn then some dn else none

/-! ## Dispatcher (src/ldapfs/ldapfs.py) -/

/-- `ATTRIBUTES_FILENAME` (ldapfs.py line 25). -/
def ATTRIBUTES_FILENAME : String := ".attributes"

/-- `Stat.DIR_SIZE` (fs.py line 16). -/
def DIR_SIZE : Nat := 4096

/-- Python `s[a:b]` for non-negative bounds. -/
def pySlice (s : String) (a b : Nat) : String :=
  ((s.data.drop a).take (b - a)).asString

inductive GetattrResult where
  | stat (isdir : Bool) (size : Nat)
  | enoent
deriving DecidableEq

inductive ReadResult where
  | data (s : String)
  | enoent
deriving DecidableEq

/-- The parent-attribute fallback of `getattr` (ldapfs.py lines 187-226),
reached when the full path named no LDAP object.  `logs` holds the levels
logged so far.  The file sizes are the ones of `fs.entry_size`/
`fs.attr_size` — the module-level predecessors of `Stat._dict_size`/
`Stat._list_size` in src/ldapfs/fs.py (ldapfs.py lines 216 and 223 call
the older fs API). -/
def getattrParent (fs : LdapFS) (hc : HostConfig) (pathlst : List String)
    (base_dn : String) (logs : List LogLevel) : GetattrResult × List LogLevel :=
  if pathlst.length = 2 then (.enoent, logs ++ [.debug])
  else
    let parent_path_lst := (pathlst.drop 2).dropLast
    let filename := pathlst.getLastD ""
    match list2dn fs.validDN parent_path_lst base_dn with
    | none => (.enoent, logs ++ [.debug])
    | some parent_dn =>
      match hc.con.searchBase parent_dn with
      | .noSuchObject => (.enoent, logs ++ [.debug, .debug])
      | .invalidDN => (.enoent, logs ++ [.debug, .debug])
      | .ldapError => (.enoent, logs ++ [.debug, .debug])
      | .found dct =>
        if filename = ATTRIBUTES_FILENAME then
          (.stat false (dict_size dct), logs ++ [.debug, .debug])
        else
          match lookupA dct filename with
          | some vals =>
            if vals ≠ [] then (.stat false (list_size vals), logs ++ [.debug, .debug])
            else (.enoent, logs ++ [.debug, .debug])
          | none => (.enoent, logs ++ [.debug, .debug])

/-- `LdapFS.getattr` after `_path2list` (ldapfs.py lines 128-226).  The
second component lists the level of every `LOG` call executed, in order
(every handler in `getattr` logs at debug level, including the generic
`ldap.LDAPError` handler at lines 183-185). -/
def getattrCore (fs : LdapFS) (pathlst : List String) : GetattrResult × List LogLevel :=
  if pathlst = [] then (.enoent, [.debug, .debug, .debug])
  else if pathlst = [""] then (.stat true DIR_SIZE, [.debug, .debug, .debug])
  else
    match lookupA fs.hosts (pathlst.headD "") with
    | none => (.enoent, [.debug, .debug, .debug])
    | some hc =>
      if pathlst.length = 1 then (.stat true DIR_SIZE, [.debug, .debug, .debug])
      else
        let base_dn := pathlst.getD 1 ""
        if base_dn ∈ hc.base_dns then
          match list2dn fs.validDN (pathlst.drop 2) base_dn with
          | none => getattrParent fs hc pathlst base_dn [.debug, .debug, .debug, .debug]
          | some dn =>
            match hc.con.searchBase dn with
            | .found _ => (.stat true DIR_SIZE, [.debug, .debug, .debug, .debug])
            | .noSuchObject =>
              getattrParent fs hc pathlst base_dn [.debug, .debug, .debug, .debug, .debug]
            | .invalidDN =>
              getattrParent fs hc pathlst base_dn [.debug, .debug, .debug, .debug, .debug]
            | .ldapError => (.enoent, [.debug, .debug, .debug, .debug, .debug])
        else (.enoent, [.debug, .debug, .debug, .debug])

/-- `LdapFS.getattr` (ldapfs.py lines 128-226). -/
def LdapFS.getattr (fs : LdapFS) (path : String) : GetattrResult × List LogLevel :=
  getattrCore fs (path2list path)

/-- `LdapFS.readdir` after `_path2list` (ldapfs.py lines 228-279): the
directory entries yielded (an aborted generator yields nothing), plus the
log levels.  The sole non-debug log of the dispatcher is the `LOG.error`
at line 274, reached when either search under a resolved base DN raises
(`ldap.NO_SUCH_OBJECT` and `ldap.INVALID_DN_SYNTAX` are `ldap.LDAPError`
subclasses, so they land in the same handler). -/
def readdirCore (fs : LdapFS) (pathlst : List String) : List String × List LogLevel :=
  if pathlst = [] then ([], [.debug, .debug])
  else if pathlst = [""] then
    ([".", ".."] ++ fs.hosts.map Prod.fst, [.debug, .debug, .debug])
  else
    match lookupA fs.hosts (pathlst.headD "") with
    | none => ([], [.debug, .debug, .debug])
    | some hc =>
      if pathlst.length = 1 then
        ([".", ".."] ++ hc.base_dns, [.debug, .debug, .debug])
      else
        let base_dn := pathlst.getD 1 ""
        if base_dn ∈ hc.base_dns then
          match list2dn fs.validDN (pathlst.drop 2) base_dn with
          | none => ([], [.debug, .debug, .debug, .debug])
          | some dn =>
            match hc.con.searchBase dn with
            | .found dct =>
              match hc.con.searchOne dn with
              | .found entries =>
                ([".", ".."] ++ [ATTRIBUTES_FILENAME] ++ dct.map Prod.fst
                  ++ entries.map (fun e => dn2filenameS e.1 dn),
                 [.debug, .debug, .debug])
              | _ => ([], [.debug, .debug, .debug, .error])
            | _ => ([], [.debug, .debug, .debug, .error])
        else ([], [.debug, .debug, .debug, .debug])

/-- `LdapFS.readdir` (ldapfs.py lines 228-279); `offset` is unused by the
source. -/
def LdapFS.readdir (fs : LdapFS) (path : String) (_offset : Nat) :
    List String × List LogLevel :=
  readdirCore fs (path2list path)

/-- `LdapFS.read` after `_path2list` (ldapfs.py lines 293-348).  Note
lines 343 and 346: the rendered text is sliced `retval[offset:size]`. -/
def readCore (fs : LdapFS) (pathlst : List String) (size offset : Nat) :
    ReadResult × List LogLevel :=
  if pathlst.length < 3 then (.enoent, [.debug, .debug])
  else
    match lookupA fs.hosts (pathlst.headD "") with
    | none => (.enoent, [.debug, .debug, .debug])
    | some hc =>
      let base_dn := pathlst.getD 1 ""
      if base_dn ∈ hc.base_dns then
        match list2dn fs.validDN ((pathlst.drop 2).dropLast) base_dn with
        | none => (.enoent, [.debug, .debug, .debug, .debug])
        | some dn =>
          match hc.con.searchBase dn with
          | .noSuchObject => (.enoent, [.debug, .debug, .debug, .debug, .debug])
          | .invalidDN => (.enoent, [.debug, .debug, .debug, .debug, .debug])
          | .ldapError => (.enoent, [.debug, .debug, .debug, .debug, .debug])
          | .found dct =>
            let logs := [LogLevel.debug, .debug, .debug, .debug, .debug, .debug]
            let filename := pathlst.getLastD ""
            if filename = ATTRIBUTES_FILENAME then
              (.data (pySlice
                (joinSep "\n" (dct.map fun kv => kv.1 ++ "=" ++ joinSep "," kv.2) ++ "\n")
                offset size), logs)
            else
              match lookupA dct filename with
              | some vals => (.data (pySlice (joinSep "," vals ++ "\n") offset size), logs)
              | none => (.enoent, logs)
      else (.enoent, [.debug, .debug, .debug, .debug])

/-- `LdapFS.read` (ldapfs.py lines 293-348). -/
def LdapFS.read (fs : LdapFS) (path : String) (size offset : Nat) :
    ReadResult × List LogLevel :=
  readCore fs (path2list path) size offset

/-- `LdapFS.mknod` (ldapfs.py lines 281-285): logs at debug level and
returns 0 for every path, mode and device. -/
def LdapFS.mknod (_fs : LdapFS) (_path : String) (_mode _dev : Nat) :
    Int × List LogLevel :=
  (0, [.debug])

/-- `LdapFS.mkdir` (ldapfs.py lines 409-413): logs at debug level and
returns 0 for every path and mode; no state of any kind is updated. -/
def LdapFS.mkdir (_fs : LdapFS) (_path : String) (_mode : Nat) :
    Int × List LogLevel :=
  (0, [.debug])

/-! ## Concrete fixtures for witnesses and counterexamples -/

/-- A connection on which every search reports "no such object". -/
def noCon : LdapConn :=
  { searchBase := fun _ => .noSuchObject, searchOne := fun _ => .noSuchObject }

/-- Example server: the base object `dc=example` has the single attribute
`cn = [alice]` and no children; every other DN is absent. -/
def exampleCon : LdapConn :=
  { searchBase := fun dn => if dn = "dc=example" then .found [("cn", ["alice"])] else .noSuchObject
    searchOne := fun dn => if dn = "dc=example" then .found [] else .noSuchObject }

/-- Example dispatcher state: host `ldap1` with base DN `dc=example`.
The modelled DN grammar accepts the two well-formed DNs the scenarios
build; `newdir,dc=example` is invalid (`newdir` contains no `=`). -/
def exampleFS : LdapFS :=
  { hosts := [("ldap1", { base_dns := ["dc=example"], con := exampleCon })]
    validDN := fun dn => dn = "dc=example" || dn = "cn=alice,dc=example" }

/-- A connection whose every search raises a generic `ldap.LDAPError`
(e.g. the server is unreachable). -/
def downCon : LdapConn :=
  { searchBase := fun _ => .ldapError, searchOne := fun _ => .ldapError }

/-- Dispatcher state whose one host is unreachable. -/
def downFS : LdapFS :=
  { hosts := [("ldap1", { base_dns := ["dc=example"], con := downCon })]
    validDN := fun _ => true }

/-! ### Codec lemmas -/

theorem token_isPrefixOf_iff (x : List Char) :
    pathSepToken.isPrefixOf x = true ↔ ∃ u, x = '%' :: '2' :: 'F' :: u := by
  cases x with
  | nil => simp [pathSepToken, List.isPrefixOf]
  | cons a y =>
    cases y with
    | nil => simp [pathSepToken, List.isPrefixOf]
    | cons b z =>
      cases z with
      | nil => simp [pathSepToken, List.isPrefixOf]
      | cons d w =>
        constructor
        · intro h
          have h3 : '%' = a ∧ '2' = b ∧ 'F' = d := by
            simpa [pathSepToken, List.isPrefixOf, Bool.and_eq_true] using h
          exact ⟨w, by rw [← h3.1, ← h3.2.1, ← h3.2.2]⟩
        · rintro ⟨u, hu⟩
          simp only [List.cons.injEq] at hu
          simp [pathSepToken, List.isPrefixOf, hu.1, hu.2.1, hu.2.2.1]

theorem escape_path_slash (t : List Char) :
    escape_path ('/' :: t) = pathSepToken ++ escape_path t := by
  simp [escape_path, pathSepToken]

theorem escape_path_cons (c : Char) (t : List Char) (hc : c ≠ '/') :
    escape_path (c :: t) = c :: escape_path t := by
  simp [escape_path, hc]

theorem unescape_path_token (u : List Char) :
    unescape_path (pathSepToken ++ u) = '/' :: unescape_path u := rfl

theorem unescape_path_cons (c : Char) (u : List Char)
    (h : pathSepToken.isPrefixOf (c :: u) = false) :
    unescape_path (c :: u) = c :: unescape_path u := by
  apply unescape_path.eq_2
  intro s1 hc hs
  have htrue : pathSepToken.isPrefixOf (c :: u) = true :=
    (token_isPrefixOf_iff _).mpr ⟨s1, by rw [hc, hs]⟩
  rw [h] at htrue
  exact Bool.false_ne_true htrue

/-- Inverting one step of `escape_path`: a produced head other than `%`
was copied from the input. -/
theorem escape_path_eq_cons (t : List Char) (a : Char) (r : List Char)
    (he : escape_path t = a :: r) (ha : a ≠ '%') :
    ∃ t', t = a :: t' ∧ escape_path t' = r := by
  cases t with
  | nil => simp [escape_path] at he
  | cons c t' =>
    by_cases hc : c = '/'
    · subst hc
      rw [escape_path_slash] at he
      simp only [pathSepToken, List.cons_append, List.cons.injEq] at he
      exact (ha he.1.symm).elim
    · rw [escape_path_cons c t' hc] at he
      simp only [List.cons.injEq] at he
      exact ⟨t', by rw [he.1], he.2⟩

theorem hasOcc_cons_false {pat : List Char} {c : Char} {t : List Char}
    (h : hasOcc pat (c :: t) = false) : hasOcc pat t = false := by
  rw [hasOcc] at h
  exact (Bool.or_eq_false_iff.mp h).2

theorem hasOcc_head_false {pat : List Char} {c : Char} {t : List Char}
    (h : hasOcc pat (c :: t) = false) : pat.isPrefixOf (c :: t) = false := by
  rw [hasOcc] at h
  exact (Bool.or_eq_false_iff.mp h).1

/-- Round trip `unescape ∘ escape` on strings free of the sentinel. -/
theorem unescape_escape (s : List Char) (h : hasOcc pathSepToken s = false) :
    unescape_path (escape_path s) = s := by
  induction s with
  | nil => simp [escape_path, unescape_path]
  | cons c t ih =>
    by_cases hc : c = '/'
    · subst hc
      rw [escape_path_slash, unescape_path_token, ih (hasOcc_cons_false h)]
    · rw [escape_path_cons c t hc]
      have hnp : pathSepToken.isPrefixOf (c :: escape_path t) = false := by
        by_contra hcon
        have hpre : pathSepToken.isPrefixOf (c :: escape_path t) = true := by
          revert hcon; cases pathSepToken.isPrefixOf (c :: escape_path t) <;> simp
        obtain ⟨u, hu⟩ := (token_isPrefixOf_iff _).mp hpre
        simp only [List.cons.injEq] at hu
        obtain ⟨t1, ht1, he1⟩ := escape_path_eq_cons t '2' ('F' :: u) hu.2 (by decide)
        obtain ⟨t2, ht2, _⟩ := escape_path_eq_cons t1 'F' u he1 (by decide)
        have : pathSepToken.isPrefixOf (c :: t) = true := by
          rw [(token_isPrefixOf_iff _).mpr ⟨t2, by rw [hu.1, ht1, ht2]⟩]
        rw [hasOcc_head_false h] at this
        exact Bool.false_ne_true this
      rw [unescape_path_cons c (escape_path t) hnp, ih (hasOcc_cons_false h)]

/-- Round trip `escape ∘ unescape` on strings free of the separator,
proved by fuel induction on the length. -/
theorem escape_unescape (s : List Char) (h : '/' ∉ s) :
    escape_path (unescape_path s) = s := by
  have H : ∀ n (s : List Char), s.length ≤ n → '/' ∉ s →
      escape_path (unescape_path s) = s := by
    intro n
    induction n with
    | zero =>
      intro s hlen _
      have : s = [] := List.eq_nil_of_length_eq_zero (Nat.le_zero.mp hlen)
      subst this
      simp [escape_path, unescape_path]
    | succ n ih =>
      intro s hlen hs
      cases s with
      | nil => simp [escape_path, unescape_path]
      | cons c t =>
        by_cases hp : pathSepToken.isPrefixOf (c :: t) = true
        · obtain ⟨u, hu⟩ := (token_isPrefixOf_iff _).mp hp
          rw [hu]
          show escape_path (unescape_path (pathSepToken ++ u)) = pathSepToken ++ u
          rw [unescape_path_token, escape_path_slash]
          have hulen : u.length ≤ n := by
            have h3 : (c :: t).length = u.length + 3 := by rw [hu]; simp
            omega
          have hunot : '/' ∉ u := fun hm => hs (by rw [hu]; simp [hm])
          rw [ih u hulen hunot]
        · have hp' : pathSepToken.isPrefixOf (c :: t) = false := by
            revert hp; cases pathSepToken.isPrefixOf (c :: t) <;> simp
          rw [unescape_path_cons c t hp',
            escape_path_cons c (unescape_path t) (fun hc => hs (by simp [hc])),
            ih t (Nat.le_of_succ_le_succ hlen) (fun hm => hs (List.mem_cons_of_mem c hm))]
  exact H s.length s le_rfl h

/-! ### Lemmas about `splitHead` and `dn2filename` -/

theorem isPrefixOf_append_right (l r : List Char) : l.isPrefixOf (l ++ r) = true := by
  induction l with
  | nil => simp [List.isPrefixOf]
  | cons c t ih => simp [List.isPrefixOf, ih]

theorem isPrefixOf_self (l : List Char) : l.isPrefixOf l = true := by
  have := isPrefixOf_append_right l []
  rwa [List.append_nil] at this

/-- When `sep` occurs nowhere before the final occurrence that is the
suffix, `dn.split(sep)[0]` is exactly the part before that suffix. -/
theorem splitHead_append (sep front : List Char) (hsep : sep ≠ [])
    (hocc : ∀ i < front.length, sep.isPrefixOf ((front ++ sep).drop i) = false) :
    splitHead sep (front ++ sep) = front := by
  induction front with
  | nil =>
    rw [List.nil_append]
    cases hs : sep with
    | nil => exact absurd hs hsep
    | cons c s => rw [splitHead, if_pos (by rw [← hs]; exact isPrefixOf_self sep)]
  | cons c f ih =>
    have h0 : sep.isPrefixOf (c :: (f ++ sep)) = false := by
      have := hocc 0 (by simp)
      simpa using this
    rw [List.cons_append, splitHead, if_neg (by rw [h0]; exact Bool.false_ne_true)]
    rw [ih (fun i hi => by
      have := hocc (i + 1) (by simpa using Nat.succ_lt_succ hi)
      simpa using this)]

/-! ### Length lemmas for the rendered text -/

/-- Joining a non-empty list with a one-character separator: the length
plus one equals the sum of the piece lengths plus the piece count. -/
theorem joinSep_length_one (sep : String) (h1 : sep.length = 1) :
    ∀ vs : List String, vs ≠ [] →
      (joinSep sep vs).length + 1 = (vs.map String.length).sum + vs.length
  | [], h => absurd rfl h
  | [v], _ => by simp [joinSep]
  | v :: w :: ws, _ => by
    have ih := joinSep_length_one sep h1 (w :: ws) (by simp)
    rw [show joinSep sep (v :: w :: ws) = v ++ sep ++ joinSep sep (w :: ws) from rfl]
    simp only [String.length_append, List.map_cons, List.sum_cons, List.length_cons] at ih ⊢
    omega

/-- A single rendered attribute line `v1,v2,...\n` has exactly
`Stat._list_size` bytes. -/
theorem list_size_text (vals : List String) (h : vals ≠ []) :
    (joinSep "," vals ++ "\n").length = list_size vals := by
  have hj := joinSep_length_one "," rfl vals h
  have h2 : ("\n" : String).length = 1 := rfl
  rw [String.length_append, list_size]
  omega

/-- One line of the all-attributes rendering, `name=v1,v2,...` plus its
newline, contributes exactly its `Stat._dict_size` summand. -/
theorem line_size (kv : String × List String) (hkv : kv.2 ≠ []) :
    (kv.1 ++ "=" ++ joinSep "," kv.2).length + 1 = kv.1.length + 1 + list_size kv.2 := by
  have hl := list_size_text kv.2 hkv
  have h2 : ("\n" : String).length = 1 := rfl
  have h3 : ("=" : String).length = 1 := rfl
  simp only [String.length_append] at hl ⊢
  omega

/-- The all-attributes rendering of a non-empty dict has exactly
`Stat._dict_size` bytes, provided every value list is non-empty. -/
theorem dict_size_text : ∀ attrs : Attrs, attrs ≠ [] →
    (∀ kv ∈ attrs, kv.2 ≠ []) →
    (joinSep "\n" (attrs.map fun kv => kv.1 ++ "=" ++ joinSep "," kv.2) ++ "\n").length
      = dict_size attrs
  | [], h, _ => absurd rfl h
  | [kv], _, hinv => by
    have hline := line_size kv (hinv kv (by simp))
    have h2 : ("\n" : String).length = 1 := rfl
    simp only [List.map_cons, List.map_nil, joinSep, dict_size, List.sum_cons,
      List.sum_nil, String.length_append] at hline ⊢
    omega
  | kv :: kv2 :: rest2, _, hinv => by
    have ih := dict_size_text (kv2 :: rest2) (by simp)
      (fun x hx => hinv x (List.mem_cons_of_mem kv hx))
    have hline := line_size kv (hinv kv (by simp))
    have hsplit : joinSep "\n" ((kv :: kv2 :: rest2).map fun kv => kv.1 ++ "=" ++ joinSep "," kv.2)
        = (kv.1 ++ "=" ++ joinSep "," kv.2) ++ "\n"
          ++ joinSep "\n" ((kv2 :: rest2).map fun kv => kv.1 ++ "=" ++ joinSep "," kv.2) := by
      simp [joinSep]
    rw [hsplit]
    have h2 : ("\n" : String).length = 1 := rfl
    simp only [dict_size, List.map_cons, List.sum_cons, String.length_append] at ih hline ⊢
    omega

/-! ### Lemmas about `strip` -/

theorem dropWhile_append_all (f : Char → Bool) (a x : List Char)
    (ha : ∀ c ∈ a, f c = true) :
    (a ++ x).dropWhile f = x.dropWhile f := by
  induction a with
  | nil => rfl
  | cons c t ih =>
    rw [List.cons_append, List.dropWhile_cons, if_pos (ha c (by simp))]
    exact ih (fun d hd => ha d (List.mem_cons_of_mem c hd))

theorem dropWhile_all (f : Char → Bool) (b : List Char)
    (hb : ∀ c ∈ b, f c = true) : b.dropWhile f = [] := by
  have := dropWhile_append_all f b [] hb
  rwa [List.append_nil] at this

theorem dropWhile_append_split (f : Char → Bool) (p b : List Char) :
    (p ++ b).dropWhile f
      = if p.dropWhile f = [] then b.dropWhile f else p.dropWhile f ++ b := by
  induction p with
  | nil => simp
  | cons c t ih =>
    rw [List.cons_append, List.dropWhile_cons, List.dropWhile_cons]
    by_cases hf : f c = true
    · rw [if_pos hf, if_pos hf, ih]
    · rw [if_neg hf, if_neg hf, if_neg (by simp)]
      rfl

/-- Stripping is unaffected by padding whose characters all belong to the
stripped set. -/
theorem stripChars_pad (bad : List Char) (a p b : List Char)
    (ha : ∀ c ∈ a, bad.contains c = true) (hb : ∀ c ∈ b, bad.contains c = true) :
    stripChars bad (a ++ p ++ b) = stripChars bad p := by
  unfold stripChars
  rw [List.append_assoc, dropWhile_append_all bad.contains a (p ++ b) ha,
    dropWhile_append_split]
  by_cases hp : p.dropWhile bad.contains = []
  · rw [if_pos hp, hp, dropWhile_all bad.contains b hb]
  · rw [if_neg hp, List.reverse_append,
      dropWhile_append_all bad.contains b.reverse _
        (fun c hc => hb c (List.mem_reverse.mp hc))]

/-- Claim C10's key fact at the `_path2list` level: all-space padding on
either end does not change the component list. -/
theorem path2list_pad (a p b : String)
    (ha : ∀ c ∈ a.data, c = ' ') (hb : ∀ c ∈ b.data, c = ' ') :
    path2list (a ++ p ++ b) = path2list p := by
  unfold path2list
  rw [String.data_append, String.data_append,
    stripChars_pad ['/', ' '] a.data p.data b.data
      (fun c hc => by rw [ha c hc]; rfl) (fun c hc => by rw [hb c hc]; rfl)]

/-! ## Claim theorems -/

/-- C1: the claim states `read(path, length, offset)` returns the slice
`[offset, offset+length)` of the rendered attribute text.  The code
(ldapfs.py lines 343/346) instead returns `retval[offset:size]`.  On the
spec's own scenario entry (`cn = [alice]`, rendering `alice\n`) with
offset 2 and length 3, the code returns `"i"` (`retval[2:3]`), while the
claimed window `[2, 5)` is `"ice"`. -/
theorem c1_read_slices_offset_to_size :
    (LdapFS.read exampleFS "/ldap1/dc=example/cn" 3 2).1 = .data "i"
    ∧ (("alice\n".data.drop 2).take 3).asString = "ice"
    ∧ ("i" : String) ≠ "ice" := by
  decide

/-- C2: the claim states that after a successful `mkdir`, an immediate
`getattr` of the same path returns directory metadata via the Virtual
Directory Overlay.  In the code, `mkdir` (ldapfs.py lines 410-413) is a
stub returning 0 and registering nothing, no overlay exists, and
`getattr` (lines 128-226) then reports the path as absent: the parent
`/ldap1/dc=example` resolves to an existing LDAP object, `mkdir` of
`newdir` under it "succeeds", yet `getattr` returns `-errno.ENOENT`. -/
theorem c2_mkdir_not_visible_to_getattr :
    (LdapFS.getattr exampleFS "/ldap1/dc=example").1 = .stat true DIR_SIZE
    ∧ LdapFS.mkdir exampleFS "/ldap1/dc=example/newdir" 493 = (0, [.debug])
    ∧ (LdapFS.getattr exampleFS "/ldap1/dc=example/newdir").1 = .enoent := by
  decide

/-- C3: the claim states `mkdir`/`mknod` return EPERM (`-1`) for paths
with fewer than three components, and that `mknod` rejects every filename
other than the reserved all-attributes name.  The code stubs (ldapfs.py
lines 282-285 and 410-413) return 0 for every path: `mkdir("/a")`,
`mknod("/a")`, and `mknod` of an ordinary filename all "succeed". -/
theorem c3_mkdir_mknod_stubs_return_zero :
    LdapFS.mkdir exampleFS "/a" 493 = (0, [.debug])
    ∧ LdapFS.mknod exampleFS "/a" 420 0 = (0, [.debug])
    ∧ LdapFS.mknod exampleFS "/ldap1/dc=example/notattrs" 420 0 = (0, [.debug])
    ∧ ((0 : Int) ≠ -1) := by
  decide

/-- C4 counterexample: the claim quantifies the round trips over *all*
strings; both directions fail.  `unescape(escape("%2F")) = "/"` because
the sentinel token already present in the input is torn down, and
`escape(unescape("/")) = "%2F"` because the separator in the input is
escaped on the way back. -/
theorem c4_claim_counterexample :
    unescape_path (escape_path ['%', '2', 'F']) ≠ ['%', '2', 'F']
    ∧ escape_path (unescape_path ['/']) ≠ ['/'] := by
  decide

/-- C4 amended: the codec round-trips on the strings that can actually
occur on each side: `escape ∘ unescape` is the identity on strings free
of the path separator, and `unescape ∘ escape` is the identity on strings
free of the sentinel token `%2F`. -/
theorem c4_round_trip :
    (∀ s : List Char, '/' ∉ s → escape_path (unescape_path s) = s)
    ∧ (∀ s : List Char, hasOcc pathSepToken s = false → unescape_path (escape_path s) = s) :=
  ⟨escape_unescape, unescape_escape⟩

/-- C4 witness: both round trips at concrete inputs. -/
theorem c4_round_trip_witness :
    escape_path (unescape_path "a%2Fb".data) = "a%2Fb".data
    ∧ unescape_path (escape_path "a/b".data) = "a/b".data :=
  ⟨c4_round_trip.1 "a%2Fb".data (by decide), c4_round_trip.2 "a/b".data (by decide)⟩

/-- C6 counterexample: the claim says `nameToFilename` strips the
ancestor *suffix*.  The code (ldapdn.py line 74) takes the part before
the *first* occurrence of the ancestor: for the name `cn=dc=x,dc=x` with
ancestor `dc=x` (a child whose RDN value contains the parent DN), the
code produces `cn=` while suffix-stripping prescribes `cn=dc=x`. -/
theorem c6_claim_counterexample :
    dn2filename "cn=dc=x,dc=x".data "dc=x".data
      ≠ claimNameToFilename "cn=dc=x,dc=x".data "dc=x".data := by
  decide

/-- C6 amended: when the ancestor name occurs in the name only as its
final suffix (no occurrence starts before the suffix position),
`dn2filename` agrees with the claim's pipeline: strip the ancestor
suffix, drop one trailing separator unless escaped, then escape. -/
theorem c6_to_filename (front parent : List Char) (hsep : parent ≠ [])
    (hocc : ∀ i < front.length, parent.isPrefixOf ((front ++ parent).drop i) = false) :
    dn2filename (front ++ parent) parent = claimNameToFilename (front ++ parent) parent := by
  unfold dn2filename claimNameToFilename
  rw [splitHead_append parent front hsep hocc]
  have hsuf : parent.isSuffixOf (front ++ parent) = true := by
    show parent.reverse.isPrefixOf (front ++ parent).reverse = true
    rw [List.reverse_append]
    exact isPrefixOf_append_right _ _
  rw [if_pos hsuf, List.length_append, Nat.add_sub_cancel, List.take_left]

/-- C6 witness: the amended equation at a concrete child name
`cn=a,dc=x` under ancestor `dc=x` (the unescaped trailing comma is
dropped, yielding `cn=a`). -/
theorem c6_to_filename_witness :
    dn2filename ("cn=a,".data ++ "dc=x".data) "dc=x".data
      = claimNameToFilename ("cn=a,".data ++ "dc=x".data) "dc=x".data :=
  c6_to_filename "cn=a,".data "dc=x".data (by decide) (by decide)

/-- C8 counterexample: the claim says an absent attribute key and a
present key with an empty value sequence are distinct outcomes.  In
`Entry.text` (ldapcon.py lines 39-44) both take the `if vals:` falsy
branch and raise the same `AttributeError`: on the entry `{a: []}`,
rendering `a` (present, empty) and rendering `zz` (absent) coincide. -/
theorem c8_claim_counterexample :
    Entry.text ⟨"dn", [("a", [])]⟩ "a" = Entry.text ⟨"dn", [("a", [])]⟩ "zz"
    ∧ Entry.text ⟨"dn", [("a", [])]⟩ "a" = none := by
  decide

/-- C8 amended: rendering a single (non-all-attributes) key fails with
`AttributeError` both when the key is absent and when it is present with
an empty value sequence — one shared failure outcome, not two distinct
ones. -/
theorem c8_text_failure (e : Entry) (key : String) (hk : key ≠ ALL_ATTRIBUTES)
    (h : lookupA e.attrs key = none ∨ lookupA e.attrs key = some []) :
    e.text key = none := by
  unfold Entry.text
  rw [if_neg hk]
  rcases h with h | h <;> simp [h]

/-- C8 witness: the shared failure at concrete entries. -/
theorem c8_text_failure_witness :
    Entry.text ⟨"d1", [("a", [])]⟩ "a" = none
    ∧ Entry.text ⟨"d2", [("b", ["1"])]⟩ "a" = none :=
  ⟨c8_text_failure ⟨"d1", [("a", [])]⟩ "a" (by decide) (Or.inr (by decide)),
   c8_text_failure ⟨"d2", [("b", ["1"])]⟩ "a" (by decide) (Or.inl (by decide))⟩

/-- C5: wherever `Entry.text` renders successfully, the arithmetic size
(`Stat._dict_size` for the all-attributes key, `sizeOf(values)` for a
single key) equals the byte length of the rendering.  The hypothesis is
the Entry data-model invariant: an attribute present in the mapping has a
non-empty value sequence (an LDAP entry never carries an empty value
list). -/
theorem c5_rendered_size (e : Entry) (key : String) (s : String)
    (hinv : ∀ kv ∈ e.attrs, kv.2 ≠ []) (htext : e.text key = some s) :
    rendered_size e.attrs key = s.length := by
  by_cases hk : key = ALL_ATTRIBUTES
  · subst hk
    unfold Entry.text at htext
    rw [if_pos rfl] at htext
    unfold rendered_size
    rw [if_pos rfl]
    by_cases hne : e.attrs = []
    · rw [if_neg (by simp [hne])] at htext
      obtain rfl : ("" : String) = s := by simpa using htext
      rw [hne]
      rfl
    · rw [if_pos hne] at htext
      obtain rfl :
          joinSep "\n" (e.attrs.map fun kv => kv.1 ++ "=" ++ joinSep "," kv.2) ++ "\n" = s := by
        simpa using htext
      exact (dict_size_text e.attrs hne hinv).symm
  · unfold Entry.text at htext
    rw [if_neg hk] at htext
    unfold rendered_size
    rw [if_neg hk]
    cases hl : lookupA e.attrs key with
    | none => rw [hl] at htext; simp at htext
    | some vals =>
      rw [hl] at htext
      by_cases hv : vals = []
      · subst hv
        simp at htext
      · have htext2 : joinSep "," vals ++ "\n" = s := by simpa [hv] using htext
        have hls : list_size vals = s.length := htext2 ▸ (list_size_text vals hv).symm
        simpa using hls

/-- C5 witness: the arithmetic size of a three-attribute entry against
the length of its all-attributes rendering (19 bytes, as in the
repository's own `test_entry.py` size cases). -/
theorem c5_rendered_size_witness :
    rendered_size [("a", ["1"]), ("b", ["3"]), ("ckey", ["4", "5", "6"])] ALL_ATTRIBUTES
      = ("a=1\nb=3\nckey=4,5,6\n" : String).length :=
  c5_rendered_size ⟨"dn1", [("a", ["1"]), ("b", ["3"]), ("ckey", ["4", "5", "6"])]⟩
    ALL_ATTRIBUTES "a=1\nb=3\nckey=4,5,6\n" (by decide) (by decide)

/-- C9: for every raw path and host table, the classified `Path`
satisfies the claimed invariants: a resolved base DN implies a resolved
host, and `dn_parts` is `parts[1:]` exactly when both host and base DN
resolved, empty otherwise. -/
theorem c9_classification_invariants (fspath : String)
    (hosts : List (String × HostConfig)) :
    ((mkPath fspath hosts).base_dn.isSome → (mkPath fspath hosts).host.isSome)
    ∧ ((mkPath fspath hosts).host.isSome ∧ (mkPath fspath hosts).base_dn.isSome →
        (mkPath fspath hosts).dn_parts = (mkPath fspath hosts).parts.drop 1)
    ∧ (¬((mkPath fspath hosts).host.isSome ∧ (mkPath fspath hosts).base_dn.isSome) →
        (mkPath fspath hosts).dn_parts = []) := by
  unfold mkPath
  dsimp only
  split
  · split
    · split
      · simp
      · simp
    · simp
  · simp

/-- C9 witness: at `/ldap1/dc=example/cn` both host and base DN resolve,
and the invariant instantiates to `dn_parts = parts[1:]`. -/
theorem c9_classification_invariants_witness :
    (mkPath "/ldap1/dc=example/cn" exampleFS.hosts).dn_parts
      = (mkPath "/ldap1/dc=example/cn" exampleFS.hosts).parts.drop 1 :=
  (c9_classification_invariants "/ldap1/dc=example/cn" exampleFS.hosts).2.1
    ⟨by decide, by decide⟩

/-- C10: `strip('/ ')` removes spaces as well as slashes from both ends,
so all-space padding leaves the component list, the classification
fields, and every dispatch result unchanged. -/
theorem c10_space_padding (a p b : String)
    (ha : ∀ c ∈ a.data, c = ' ') (hb : ∀ c ∈ b.data, c = ' ') :
    path2list (a ++ p ++ b) = path2list p
    ∧ (∀ hosts, (mkPath (a ++ p ++ b) hosts).parts = (mkPath p hosts).parts
        ∧ (mkPath (a ++ p ++ b) hosts).len = (mkPath p hosts).len
        ∧ (mkPath (a ++ p ++ b) hosts).host = (mkPath p hosts).host
        ∧ (mkPath (a ++ p ++ b) hosts).base_dn = (mkPath p hosts).base_dn
        ∧ (mkPath (a ++ p ++ b) hosts).dn_parts = (mkPath p hosts).dn_parts)
    ∧ (∀ fs : LdapFS, LdapFS.getattr fs (a ++ p ++ b) = LdapFS.getattr fs p)
    ∧ (∀ (fs : LdapFS) (off : Nat),
        LdapFS.readdir fs (a ++ p ++ b) off = LdapFS.readdir fs p off)
    ∧ (∀ (fs : LdapFS) (size off : Nat),
        LdapFS.read fs (a ++ p ++ b) size off = LdapFS.read fs p size off) := by
  have hp := path2list_pad a p b ha hb
  refine ⟨hp, ?_, ?_, ?_, ?_⟩
  · intro hosts
    unfold mkPath
    dsimp only
    rw [hp]
    exact ⟨rfl, rfl, rfl, rfl, rfl⟩
  · intro fs
    unfold LdapFS.getattr
    rw [hp]
  · intro fs off
    unfold LdapFS.readdir
    rw [hp]
  · intro fs size off
    unfold LdapFS.read
    rw [hp]

/-- C10 witness: a path padded with spaces classifies and dispatches like
the unpadded path. -/
theorem c10_space_padding_witness :
    path2list (" " ++ "/ldap1" ++ " ") = path2list "/ldap1"
    ∧ LdapFS.getattr exampleFS (" " ++ "/ldap1" ++ " ") = LdapFS.getattr exampleFS "/ldap1" :=
  ⟨(c10_space_padding " " "/ldap1" " " (by decide) (by decide)).1,
   (c10_space_padding " " "/ldap1" " " (by decide) (by decide)).2.2.1 exampleFS⟩

/-- C7 counterexample: the claim requires the transport error to be
logged at elevated severity in getattr, readdir and read.  When the base
object search of `getattr` raises a generic `ldap.LDAPError` (server
down), the operation degrades to `-errno.ENOENT` — but every log record
it makes is debug-level (ldapfs.py lines 183-185), refuting the elevated
severity part for `getattr`. -/
theorem c7_claim_counterexample :
    (LdapFS.getattr downFS "/ldap1/dc=example/cn").1 = .enoent
    ∧ ∀ l ∈ (LdapFS.getattr downFS "/ldap1/dc=example/cn").2, l = LogLevel.debug := by
  decide

/-- C7 amended: a transport-level `ldap.LDAPError` during the base-object
search degrades getattr, readdir and read to a not-found outcome and is
never propagated; it is logged at elevated (error) severity only in
`readdir` (line 274) — `getattr` (lines 183-185) and `read` (lines
332-334) record it at debug severity. -/
theorem c7_transport_error_handling :
    (∀ (fs : LdapFS) (pathlst : List String) (hc : HostConfig) (dn : String),
      pathlst ≠ [] → pathlst ≠ [""] →
      lookupA fs.hosts (pathlst.headD "") = some hc →
      pathlst.length ≠ 1 →
      pathlst.getD 1 "" ∈ hc.base_dns →
      list2dn fs.validDN (pathlst.drop 2) (pathlst.getD 1 "") = some dn →
      hc.con.searchBase dn = .ldapError →
      getattrCore fs pathlst = (.enoent, [.debug, .debug, .debug, .debug, .debug]))
    ∧ (∀ (fs : LdapFS) (pathlst : List String) (hc : HostConfig) (dn : String),
      pathlst ≠ [] → pathlst ≠ [""] →
      lookupA fs.hosts (pathlst.headD "") = some hc →
      pathlst.length ≠ 1 →
      pathlst.getD 1 "" ∈ hc.base_dns →
      list2dn fs.validDN (pathlst.drop 2) (pathlst.getD 1 "") = some dn →
      hc.con.searchBase dn = .ldapError →
      readdirCore fs pathlst = ([], [.debug, .debug, .debug, .error]))
    ∧ (∀ (fs : LdapFS) (pathlst : List String) (hc : HostConfig) (dn : String)
        (size offset : Nat),
      ¬pathlst.length < 3 →
      lookupA fs.hosts (pathlst.headD "") = some hc →
      pathlst.getD 1 "" ∈ hc.base_dns →
      list2dn fs.validDN ((pathlst.drop 2).dropLast) (pathlst.getD 1 "") = some dn →
      hc.con.searchBase dn = .ldapError →
      readCore fs pathlst size offset = (.enoent, [.debug, .debug, .debug, .debug, .debug])) := by
  refine ⟨?_, ?_, ?_⟩
  · intro fs pathlst hc dn h1 h2 h3 h4 h5 h6 h7
    simp at h3 h5 h6
    simp [getattrCore, h1, h2, h3, h4, h5, h6, h7]
  · intro fs pathlst hc dn h1 h2 h3 h4 h5 h6 h7
    simp at h3 h5 h6
    simp [readdirCore, h1, h2, h3, h4, h5, h6, h7]
  · intro fs pathlst hc dn size offset h1 h3 h5 h6 h7
    simp at h3 h5 h6
    simp [readCore, h1, h3, h5, h6, h7]

/-- C7 witness: the three amended statements against the unreachable
host. -/
theorem c7_transport_error_handling_witness :
    getattrCore downFS ["ldap1", "dc=example", "cn"]
      = (.enoent, [.debug, .debug, .debug, .debug, .debug])
    ∧ readdirCore downFS ["ldap1", "dc=example", "cn"]
      = ([], [.debug, .debug, .debug, .error])
    ∧ readCore downFS ["ldap1", "dc=example", "cn"] 10 0
      = (.enoent, [.debug, .debug, .debug, .debug, .debug]) :=
  ⟨c7_transport_error_handling.1 downFS ["ldap1", "dc=example", "cn"]
      ⟨["dc=example"], downCon⟩ "cn,dc=example"
      (by decide) (by decide) rfl (by decide) (by decide) rfl rfl,
   c7_transport_error_handling.2.1 downFS ["ldap1", "dc=example", "cn"]
      ⟨["dc=example"], downCon⟩ "cn,dc=example"
      (by decide) (by decide) rfl (by decide) (by decide) rfl rfl,
   c7_transport_error_handling.2.2 downFS ["ldap1", "dc=example", "cn"]
      ⟨["dc=example"], downCon⟩ "dc=example" 10 0
      (by decide) rfl (by decide) rfl rfl⟩
